import Mathlib

/-!
Verification development for the fractal-explorer compute engine.

The TypeScript sources are shallowly embedded here:

* IEEE-754 doubles are modelled as rationals (exact, always finite);
  the transcendental library calls the code makes (Math.hypot, Math.atan2,
  Math.cos, Math.sin and the two polar-form branches of complex pow) are
  abstracted as parameter functions bundled in a record, since none of the
  verified properties depend on their values.
* The sandboxed formula compiler's dynamically-built callables are modelled
  as function parameters; the compile result is an Option (some evaluator on
  success, none on failure), mirroring the fn-or-null result in the source.
* Where JavaScript number semantics matter, a dedicated type JNum with
  explicit non-finite values is used: NaN propagation through
  Math.min / Math.max / Math.round in sanitizeRgb, and double overflow to
  Infinity (boundary 2^1024) in the arithmetic of div.
-/

set_option autoImplicit false
set_option maxRecDepth 40000

namespace FractalExplorer

/-! ## Complex arithmetic library (src/unnamed/part_000, createOps) -/

/-- Complex number as a pair of doubles, embedded with rational components. -/
structure Complex where
  re : ℚ
  im : ℚ
deriving DecidableEq

namespace Complex

def add (a b : Complex) : Complex := ⟨a.re + b.re, a.im + b.im⟩

def sub (a b : Complex) : Complex := ⟨a.re - b.re, a.im - b.im⟩

def mul (a b : Complex) : Complex :=
  ⟨a.re * b.re - a.im * b.im, a.re * b.im + a.im * b.re⟩

/-- Denominator used by div: b.re²+b.im², with 0 replaced by 1e-12
(the JavaScript `denom || 1e-12`). -/
def divDenom (b : Complex) : ℚ :=
  if b.re * b.re + b.im * b.im = 0 then 1 / 1000000000000 else b.re * b.re + b.im * b.im

def div (a b : Complex) : Complex :=
  ⟨(a.re * b.re + a.im * b.im) / divDenom b,
   (a.im * b.re - a.re * b.im) / divDenom b⟩

def scale (z : Complex) (factor : ℚ) : Complex := ⟨z.re * factor, z.im * factor⟩

instance : Zero Complex := ⟨⟨0, 0⟩⟩
instance : One Complex := ⟨⟨1, 0⟩⟩
instance : Add Complex := ⟨add⟩
instance : Mul Complex := ⟨mul⟩
instance : Neg Complex := ⟨fun z => ⟨-z.re, -z.im⟩⟩

@[simp] theorem zero_re : (0 : Complex).re = 0 := rfl
@[simp] theorem zero_im : (0 : Complex).im = 0 := rfl
@[simp] theorem one_re : (1 : Complex).re = 1 := rfl
@[simp] theorem one_im : (1 : Complex).im = 0 := rfl
@[simp] theorem add_re (a b : Complex) : (a + b).re = a.re + b.re := rfl
@[simp] theorem add_im (a b : Complex) : (a + b).im = a.im + b.im := rfl
@[simp] theorem mul_re (a b : Complex) : (a * b).re = a.re * b.re - a.im * b.im := rfl
@[simp] theorem mul_im (a b : Complex) : (a * b).im = a.re * b.im + a.im * b.re := rfl
@[simp] theorem neg_re (a : Complex) : (-a).re = -a.re := rfl
@[simp] theorem neg_im (a : Complex) : (-a).im = -a.im := rfl

theorem ext_iff {a b : Complex} : a = b ↔ a.re = b.re ∧ a.im = b.im := by
  constructor
  · rintro rfl; exact ⟨rfl, rfl⟩
  · rintro ⟨h1, h2⟩; cases a; cases b; simp_all

instance : CommMonoid Complex where
  mul_assoc a b c := by rw [ext_iff]; constructor <;> simp <;> ring
  one_mul a := by rw [ext_iff]; constructor <;> simp
  mul_one a := by rw [ext_iff]; constructor <;> simp
  mul_comm a b := by rw [ext_iff]; constructor <;> simp <;> ring

end Complex

/-- Bundle of the transcendental real functions the source calls
(Math.hypot, Math.atan2, Math.cos, Math.sin) and the two polar-form
branches of complex pow, all abstracted as parameters: the embedding is
rational and no verified claim depends on their values. -/
structure RealFns where
  hypot : ℚ → ℚ → ℚ
  atan2 : ℚ → ℚ → ℚ
  cos : ℚ → ℚ
  sin : ℚ → ℚ
  /-- Polar branch of pow for a real non-(small-integer) exponent:
  r^k·(cos(kθ), sin(kθ)). -/
  powRealExp : Complex → ℚ → Complex
  /-- Polar branch of pow for an exponent with nonzero imaginary part. -/
  powComplexExp : Complex → Complex → Complex

/-- Loop body of powInt's exponentiation by squaring (the while-loop in
createOps.powInt, for a positive exponent). -/
def powLoop (result current : Complex) (e : ℕ) : Complex :=
  if e = 0 then result
  else powLoop (if e % 2 = 1 then result * current else result) (current * current) (e / 2)
termination_by e
decreasing_by exact Nat.div_lt_self (Nat.pos_of_ne_zero (by assumption)) (by norm_num)

/-- createOps.powInt: integer powers by squaring; negative exponents invert
the positive power via div. -/
def powInt (base : Complex) (exponent : ℤ) : Complex :=
  if exponent = 0 then 1
  else if exponent < 0 then Complex.div 1 (powLoop 1 base (-exponent).toNat)
  else powLoop 1 base exponent.toNat

/-- Rat q is an integer value (Number.isInteger on the embedded double). -/
def isIntegerQ (q : ℚ) : Bool := q.den = 1

/-- createOps.pow. The Math.hypot(z.re, z.im) === 0 guard holds exactly when
both components are zero, which is how it is written here; the two
transcendental polar branches are taken from the RealFns parameter. -/
def pow (R : RealFns) (z exponent : Complex) : Complex :=
  if z.re = 0 ∧ z.im = 0 then 0
  else if |exponent.im| < 1 / 1000000000 then
    if isIntegerQ exponent.re ∧ |exponent.re| ≤ 32 then powInt z exponent.re.num
    else R.powRealExp z exponent.re
  else R.powComplexExp z exponent

/-- fallbackEvaluator: z^exponent + c. -/
def fallbackEvaluator (R : RealFns) (z c exponent : Complex) : Complex :=
  pow R z exponent + c

/-! ## HSL → RGB conversion and palette colorizers (src/unnamed/part_000) -/

/-- Truncation toward zero, as in the JavaScript % operator's quotient. -/
def qtrunc (q : ℚ) : ℤ := if 0 ≤ q then ⌊q⌋ else -⌊-q⌋

/-- JavaScript remainder a % m (sign follows the dividend; quotient truncated
toward zero). Only used with m > 0 here. -/
def jsMod (a m : ℚ) : ℚ := a - m * qtrunc (a / m)

/-- Math.round: round half toward positive infinity. -/
def jsRound (q : ℚ) : ℤ := ⌊q + 1 / 2⌋

/-- hslToRgb from src/unnamed/part_000: sector-based HSL → RGB with rounded
integer channels (note the source applies no clamp; the range result is a
theorem, not part of the definition). -/
def hslToRgb (h s l : ℚ) : ℤ × ℤ × ℤ :=
  let hue := jsMod (jsMod h 360 + 360) 360
  let c := (1 - |2 * l - 1|) * s
  let hp := hue / 60
  let x := c * (1 - |jsMod hp 2 - 1|)
  let rgb1 : ℚ × ℚ × ℚ :=
    if 0 ≤ hp ∧ hp < 1 then (c, x, 0)
    else if 1 ≤ hp ∧ hp < 2 then (x, c, 0)
    else if 2 ≤ hp ∧ hp < 3 then (0, c, x)
    else if 3 ≤ hp ∧ hp < 4 then (0, x, c)
    else if 4 ≤ hp ∧ hp < 5 then (x, 0, c)
    else if 5 ≤ hp ∧ hp < 6 then (c, 0, x)
    else (0, 0, 0)
  let m := l - c / 2
  (jsRound ((rgb1.1 + m) * 255), jsRound ((rgb1.2.1 + m) * 255), jsRound ((rgb1.2.2 + m) * 255))

/-- Exterior palette identifiers. -/
inductive ColorScheme where
  | classic
  | fire
  | ice
deriving DecidableEq

/-- colorizers table: palette id → normalized shade t → RGB. -/
def colorizers : ColorScheme → ℚ → ℤ × ℤ × ℤ
  | ColorScheme.classic => fun t => hslToRgb (200 + 120 * t) (65 / 100) (1 / 2)
  | ColorScheme.fire => fun t => hslToRgb (30 + 40 * t) (9 / 10) (1 / 2 + 2 / 10 * (1 - t))
  | ColorScheme.ice => fun t => hslToRgb (180 + 80 * t) (6 / 10) (45 / 100 + 15 / 100 * t)

/-! ## JavaScript number semantics for sanitizeRgb (src/unnamed/part_000)

sanitizeRgb is the one place where the claims depend on how Math.min,
Math.max and Math.round treat non-finite doubles, so its embedding uses an
explicit JavaScript-number type instead of plain rationals. -/

/-- JavaScript double: finite (as a rational), NaN, or a signed infinity. -/
inductive JNum where
  | fin (q : ℚ)
  | nan
  | inf
  | ninf
deriving DecidableEq

namespace JNum

def isFinite : JNum → Bool
  | fin _ => true
  | _ => false

/-- Math.min: NaN if either argument is NaN. -/
def jmin : JNum → JNum → JNum
  | nan, _ => nan
  | _, nan => nan
  | ninf, _ => ninf
  | _, ninf => ninf
  | inf, b => b
  | a, inf => a
  | fin a, fin b => fin (min a b)

/-- Math.max: NaN if either argument is NaN. -/
def jmax : JNum → JNum → JNum
  | nan, _ => nan
  | _, nan => nan
  | inf, _ => inf
  | _, inf => inf
  | ninf, b => b
  | a, ninf => a
  | fin a, fin b => fin (max a b)

/-- Math.round: NaN and infinities pass through; finite values round half
toward positive infinity. -/
def jround : JNum → JNum
  | fin q => fin (⌊q + 1 / 2⌋ : ℤ)
  | nan => nan
  | inf => inf
  | ninf => ninf

/-- Overflow of a finite double result: a magnitude reaching 2^1024
becomes the correspondingly signed infinity, otherwise the exact rational
value is kept. (Rounding of in-range results, the sub-ulp band just below
the boundary, subnormal underflow and the signed zero are not modelled;
the C8 inputs lie far from all of these regimes.) -/
def ovf (q : ℚ) : JNum :=
  if (2 : ℚ) ^ 1024 ≤ q then inf
  else if q ≤ -((2 : ℚ) ^ 1024) then ninf
  else fin q

/-- IEEE negation. -/
def jneg : JNum → JNum
  | fin q => fin (-q)
  | nan => nan
  | inf => ninf
  | ninf => inf

/-- IEEE addition: NaN propagates, opposite infinities give NaN, finite
sums overflow through ovf. -/
def jadd : JNum → JNum → JNum
  | nan, _ => nan
  | _, nan => nan
  | inf, ninf => nan
  | ninf, inf => nan
  | inf, _ => inf
  | _, inf => inf
  | ninf, _ => ninf
  | _, ninf => ninf
  | fin a, fin b => ovf (a + b)

/-- IEEE subtraction: a − b = a + (−b). -/
def jsub (a b : JNum) : JNum := jadd a (jneg b)

/-- IEEE multiplication: NaN propagates, infinity times zero is NaN,
finite products overflow through ovf. -/
def jmul : JNum → JNum → JNum
  | nan, _ => nan
  | _, nan => nan
  | fin a, fin b => ovf (a * b)
  | inf, inf => inf
  | inf, ninf => ninf
  | ninf, inf => ninf
  | ninf, ninf => inf
  | inf, fin b => if 0 < b then inf else if b < 0 then ninf else nan
  | fin a, inf => if 0 < a then inf else if a < 0 then ninf else nan
  | ninf, fin b => if 0 < b then ninf else if b < 0 then inf else nan
  | fin a, ninf => if 0 < a then ninf else if a < 0 then inf else nan

/-- IEEE division: NaN propagates, infinity over infinity and zero over
zero are NaN, a finite value over an infinity is zero, a nonzero finite
value over zero is a signed infinity, and finite quotients overflow
through ovf. -/
def jdiv : JNum → JNum → JNum
  | nan, _ => nan
  | _, nan => nan
  | inf, inf => nan
  | inf, ninf => nan
  | ninf, inf => nan
  | ninf, ninf => nan
  | inf, fin b => if 0 ≤ b then inf else ninf
  | ninf, fin b => if 0 ≤ b then ninf else inf
  | fin _, inf => fin 0
  | fin _, ninf => fin 0
  | fin a, fin b =>
    if b = 0 then (if a = 0 then nan else if 0 < a then inf else ninf)
    else ovf (a / b)

/-- JavaScript truthiness of a number: 0 and NaN are falsy, everything
else (including the infinities) is truthy. -/
def truthy : JNum → Bool
  | fin q => if q = 0 then false else true
  | nan => false
  | _ => true

/-- JavaScript x || y on numbers: y when x is falsy. -/
def jor (x y : JNum) : JNum := if truthy x then x else y

end JNum

/-- RGB triple as produced by an interior mapper, channels being raw
JavaScript numbers before or after sanitization. -/
structure RGBJ where
  r : JNum
  g : JNum
  b : JNum
deriving DecidableEq

/-- Orbit statistics handed to the interior mapper, with JavaScript-number
fields so that non-finite accumulations can be expressed. -/
structure OrbitStatsJ where
  length : JNum
  magnitudeSum : JNum
  angleSum : JNum
  maxMagnitude : JNum
  lastRe : JNum
  lastIm : JNum
deriving DecidableEq

/-- sanitizeRgb from src/unnamed/part_000:
clamp v = Math.max(0, Math.min(255, Math.round(v))) on each channel.
There is no finite-check: the clamp is built only from jmax/jmin/jround. -/
def sanitizeRgb (value : RGBJ) : RGBJ :=
  let clamp : JNum → JNum := fun v => JNum.jmax (JNum.fin 0) (JNum.jmin (JNum.fin 255) (JNum.jround v))
  ⟨clamp value.r, clamp value.g, clamp value.b⟩

/-- isRgbLike: in JavaScript this checks each field has typeof "number",
which every JNum (including NaN and the infinities) satisfies. -/
def isRgbLike (_ : RGBJ) : Bool := true

/-- Canonical smoke-test orbit used by compileInterior (length-1 orbit). -/
def testOrbit : OrbitStatsJ :=
  ⟨JNum.fin 1, JNum.fin 1, JNum.fin 0, JNum.fin 1, JNum.fin 0, JNum.fin 0⟩

/-- compileInterior from src/unnamed/part_000, with the dynamically compiled
raw callable abstracted as a function: smoke-test on the canonical orbit,
shape-check the result, and on success wrap the callable so every return
value passes through sanitizeRgb. -/
def compileInterior (raw : OrbitStatsJ → RGBJ) : Option (OrbitStatsJ → RGBJ) :=
  if isRgbLike (raw testOrbit) then some (fun orbit => sanitizeRgb (raw orbit))
  else none

/-- Complex number with JavaScript-number components, for the properties
that depend on double overflow. -/
structure JComplex where
  re : JNum
  im : JNum
deriving DecidableEq

/-- createOps.div embedded over JavaScript numbers (the same source line as
Complex.div, but with IEEE double arithmetic so that overflow to Infinity
and NaN can be expressed): denom = b.re*b.re + b.im*b.im || 1e-12, then the
two component quotients. The rational Complex.div is the exact-arithmetic
shadow of this definition, used where a claim stays within the finite
range. -/
def jsDiv (a b : JComplex) : JComplex :=
  let denom := JNum.jor (JNum.jadd (JNum.jmul b.re b.re) (JNum.jmul b.im b.im))
    (JNum.fin (1 / 1000000000000))
  ⟨JNum.jdiv (JNum.jadd (JNum.jmul a.re b.re) (JNum.jmul a.im b.im)) denom,
   JNum.jdiv (JNum.jsub (JNum.jmul a.im b.re) (JNum.jmul a.re b.im)) denom⟩

/-! ## Escape-time iteration kernel (src/workers/fractalWorker.ts, renderWithCpu) -/

/-- Escape threshold constant from renderWithCpu: `const escapeRadius = 16`.
The source compares the squared magnitude of z directly against this value. -/
def escapeRadius : ℚ := 16

/-- Number.isFinite of an embedded double: rationals model only finite
doubles, so this is constantly true; the corresponding branch of the loop is
kept for structural fidelity but is dead in the embedding. -/
def isFiniteQ (_ : ℚ) : Bool := true

/-- Per-pixel accumulator state of the scalar loop: current z together with
the running orbit statistics. -/
structure KState where
  z : Complex
  length : ℕ
  magnitudeSum : ℚ
  angleSum : ℚ
  maxMagnitude : ℚ
deriving DecidableEq

/-- Orbit statistics handed to the interior mapper by the scalar path. -/
structure OrbitStats where
  length : ℕ
  magnitudeSum : ℚ
  angleSum : ℚ
  maxMagnitude : ℚ
  last : Complex
deriving DecidableEq

/-- Equation evaluator signature: (z, c, exponent) → z'. -/
def EquationEvaluator : Type := Complex → Complex → Complex → Complex

/-- Interior evaluator as used by the scalar path: orbit statistics → an
already-sanitized integer RGB triple. -/
def InteriorEvaluator : Type := OrbitStats → ℤ × ℤ × ℤ

/-- One iteration of the loop body before its exit tests: apply the
evaluator and accumulate the orbit statistics. -/
def stepOrbit (R : RealFns) (ev : EquationEvaluator) (c e : Complex) (s : KState) : KState :=
  let z' := ev s.z c e
  let magnitude := R.hypot z'.re z'.im
  { z := z'
    length := s.length + 1
    magnitudeSum := s.magnitudeSum + magnitude
    angleSum := s.angleSum + R.atan2 z'.im z'.re
    maxMagnitude := max s.maxMagnitude magnitude }

/-- The per-pixel for-loop of renderWithCpu (lines 202-216): `remaining` is
maxIterations − iter, so the non-finite branch's `iter = maxIterations`
becomes `iter + remaining`. Exits: non-finite z (dead under the rational
embedding), squared magnitude above escapeRadius (breaks with the current
iter), or the loop guard (returns iter = maxIterations). -/
def iterLoop (R : RealFns) (ev : EquationEvaluator) (c e : Complex) :
    ℕ → ℕ → KState → ℕ × KState
  | 0, iter, s => (iter, s)
  | remaining + 1, iter, s =>
    let s' := stepOrbit R ev c e s
    if ¬(isFiniteQ s'.z.re && isFiniteQ s'.z.im) then (iter + remaining + 1, s')
    else if s'.z.re * s'.z.re + s'.z.im * s'.z.im > escapeRadius then (iter, s')
    else iterLoop R ev c e remaining (iter + 1) s'

/-- Full kernel run for one pixel, from z = startZValue with iter = 0. -/
def cpuKernel (R : RealFns) (ev : EquationEvaluator) (c e : Complex) (maxIterations : ℕ)
    (z0 : Complex) : ℕ × KState :=
  iterLoop R ev c e maxIterations 0 ⟨z0, 0, 0, 0, 0⟩

/-- Package the final kernel state as the OrbitStats consumed by the
interior mapper (orbit.last is the final z). -/
def orbitOf (s : KState) : OrbitStats :=
  ⟨s.length, s.magnitudeSum, s.angleSum, s.maxMagnitude, s.z⟩

/-- Per-pixel coloring of renderWithCpu (lines 218-239): interior mapper if
the loop exhausted maxIterations and an interior evaluator compiled,
otherwise the exterior palette colorizer at shade = iter / maxIterations. -/
def pixelColor (R : RealFns) (ev : EquationEvaluator) (intFn : Option InteriorEvaluator)
    (colorizer : ℚ → ℤ × ℤ × ℤ) (maxIterations : ℕ) (z0 c e : Complex) : ℤ × ℤ × ℤ :=
  let res := cpuKernel R ev c e maxIterations z0
  let shade : ℚ := (res.1 : ℚ) / (maxIterations : ℚ)
  if res.1 = maxIterations then
    match intFn with
    | some interiorFn => interiorFn (orbitOf res.2)
    | none => colorizer shade
  else colorizer shade

/-! ## Canonical formula sources and whitespace normalization
(src/unnamed/part_000 and src/workers/fractalWorker.ts) -/

/-- Whitespace as matched by the JavaScript regular expression \s and
removed by String.prototype.trim, restricted to the ASCII range (the
canonical sources contain only ASCII). -/
def isWs (ch : Char) : Bool :=
  ch = ' ' || ch = '\t' || ch = '\n' || ch = '\r' || ch = '\x0b' || ch = '\x0c'

/-- Single pass of the whitespace-run replacement: prevWs records whether
the previous character was whitespace (so a run contributes one space). -/
def collapseWsGo (prevWs : Bool) : List Char → List Char
  | [] => []
  | ch :: cs =>
    if isWs ch then
      if prevWs then collapseWsGo true cs
      else ' ' :: collapseWsGo true cs
    else ch :: collapseWsGo false cs

/-- Replace every maximal whitespace run by a single space
(source.replace of the global whitespace-run pattern with a space). -/
def collapseWs (l : List Char) : List Char := collapseWsGo false l

/-- String.prototype.trim: strip leading and trailing whitespace. -/
def jsTrim (l : List Char) : List Char :=
  ((l.dropWhile isWs).reverse.dropWhile isWs).reverse

/-- normalizeEquation from fractalWorker.ts:
source.replace(whitespace-runs, " ").trim(). -/
def normalizeEquation (source : String) : String :=
  String.mk (jsTrim (collapseWs source.data))

/-- normalizeInterior delegates to normalizeEquation. -/
def normalizeInterior (source : String) : String :=
  normalizeEquation source

/-- defaultEquationSource from src/unnamed/part_000. -/
def defaultEquationSource : String :=
  "return ops.add(ops.pow(z, exponent), c);"

/-- FEATHER_EQUATION_SOURCE from src/unnamed/part_000 (template literal with
trim applied, as in the source). -/
def FEATHER_EQUATION_SOURCE : String :=
  String.mk (jsTrim ("\nconst numerator = ops.pow(z, 3);\nconst denom = 1 + Math.pow(ops.magnitude(z), 2);\nreturn ops.add(ops.div(numerator, ops.complex(denom, 0)), c);\n").data)

/-- defaultInteriorSource from src/unnamed/part_000 (template literal with
trim applied, as in the source). -/
def defaultInteriorSource : String :=
  String.mk (jsTrim ("\nconst length = Math.max(orbit.length, 1);\nconst avgMagnitude = orbit.magnitudeSum / length;\nconst meanAngle = orbit.angleSum / length;\nconst hue = 210 + 90 * Math.sin(meanAngle);\nconst saturation = 0.5 + 0.3 * Math.min(1, orbit.maxMagnitude / 4);\nconst lightness = 0.25 + 0.5 * Math.min(1, avgMagnitude / 3);\nconst [r, g, b] = helpers.hslToRgb(hue, saturation, lightness);\nreturn \x7b r, g, b \x7d;\n").data)

/-- DEFAULT_EQUATION_NORMALIZED constant of fractalWorker.ts. -/
def DEFAULT_EQUATION_NORMALIZED : String := normalizeEquation defaultEquationSource

/-- FEATHER_EQUATION_NORMALIZED constant of fractalWorker.ts. -/
def FEATHER_EQUATION_NORMALIZED : String := normalizeEquation FEATHER_EQUATION_SOURCE

/-- DEFAULT_INTERIOR_NORMALIZED constant of fractalWorker.ts. -/
def DEFAULT_INTERIOR_NORMALIZED : String := normalizeInterior defaultInteriorSource

/-- MAX_SHADER_ITERATIONS constant of fractalWorker.ts. -/
def MAX_SHADER_ITERATIONS : ℕ := 4096

/-- getEquationMode: 0 for the default formula, 1 for feather, null
otherwise (textual comparison of normalized sources). -/
def getEquationMode (normalized : String) : Option ℕ :=
  if normalized = DEFAULT_EQUATION_NORMALIZED then some 0
  else if normalized = FEATHER_EQUATION_NORMALIZED then some 1
  else none

/-! ## Render scheduler (src/workers/fractalWorker.ts) -/

/-- Plane-variable roles of the dynamical system. -/
inductive VariableKey where
  | z
  | c
  | exponent
deriving DecidableEq

/-- Render payload fields consumed by the worker (fractalWorkerTypes). -/
structure FractalRenderPayload where
  width : ℕ
  height : ℕ
  center : Complex
  scale : ℚ
  maxIterations : ℕ
  planeVariable : VariableKey
  manualZ : Complex
  manualC : Complex
  manualExponent : Complex
  colorScheme : ColorScheme
  equationSource : String
  interiorSource : String
  rotation : ℚ

/-- Backend chosen for a render request. -/
inductive Backend where
  | webgl
  | cpu
deriving DecidableEq

/-- The useWebGL eligibility test of ctx.onmessage (fractalWorker.ts lines
67-71): OffscreenCanvas availability, a recognized normalized equation,
normalized-default interior source, and the shader iteration cap. -/
def useWebGL (offscreenAvailable : Bool) (payload : FractalRenderPayload) : Bool :=
  offscreenAvailable
    && (getEquationMode (normalizeEquation payload.equationSource)).isSome
    && (normalizeInterior payload.interiorSource = DEFAULT_INTERIOR_NORMALIZED)
    && (payload.maxIterations ≤ MAX_SHADER_ITERATIONS)

/-- Backend dispatch of ctx.onmessage: WebGL when eligible and the WebGL
render does not throw (glSucceeds models the try/catch), otherwise the
scalar path. -/
def dispatch (offscreenAvailable glSucceeds : Bool) (payload : FractalRenderPayload) : Backend :=
  if useWebGL offscreenAvailable payload && glSucceeds then Backend.webgl else Backend.cpu

/-- Worker responses (fractalWorkerTypes). Wall-clock elapsed times and the
bitmap contents are outside the embedding. -/
inductive Response where
  | chunk (id startY rows width : ℕ) (buffer : List ℤ)
  | bitmap (id : ℕ)
  | done (id : ℕ)
  | error (id : ℕ) (message : String)
deriving DecidableEq

def Response.isError : Response → Bool
  | Response.error _ _ => true
  | _ => false

def Response.isDone : Response → Bool
  | Response.done _ => true
  | _ => false

/-- rowsPerChunk = max(2, floor(height / 180)). -/
def rowsPerChunk (payload : FractalRenderPayload) : ℕ :=
  max 2 (payload.height / 180)

/-- Number of horizontal bands the scalar path emits for a full frame. -/
def numBands (payload : FractalRenderPayload) : ℕ :=
  (payload.height + rowsPerChunk payload - 1) / rowsPerChunk payload

/-- Rows in band k: min(rowsPerChunk, height − startY). -/
def bandRows (payload : FractalRenderPayload) (k : ℕ) : ℕ :=
  min (rowsPerChunk payload) (payload.height - k * rowsPerChunk payload)

/-- Plane coordinate of pixel (x, y): offset from the image center scaled by
scale/width, rotated by the payload rotation, translated by the center. -/
def planePoint (R : RealFns) (payload : FractalRenderPayload) (x y : ℕ) : Complex :=
  let unit := payload.scale / (payload.width : ℚ)
  let dx := ((x : ℚ) - (payload.width : ℚ) / 2) * unit
  let dy := ((y : ℚ) - (payload.height : ℚ) / 2) * unit
  let cosRotation := R.cos payload.rotation
  let sinRotation := R.sin payload.rotation
  ⟨payload.center.re + (dx * cosRotation - dy * sinRotation),
   payload.center.im + (dx * sinRotation + dy * cosRotation)⟩

/-- Color of the pixel at absolute position (x, y): substitute the plane
value into the slot named by planeVariable, then run the kernel and the
coloring of renderWithCpu. eqFn and intFn are the results of
compileEquation / compileInterior on the payload sources; a null equation
falls back to fallbackEvaluator. -/
def pixelAt (R : RealFns) (payload : FractalRenderPayload) (eqFn : Option EquationEvaluator)
    (intFn : Option InteriorEvaluator) (x y : ℕ) : ℤ × ℤ × ℤ :=
  let planeValue := planePoint R payload x y
  let cValue := if payload.planeVariable = VariableKey.c then planeValue else payload.manualC
  let exponentValue :=
    if payload.planeVariable = VariableKey.exponent then planeValue else payload.manualExponent
  let startZValue := if payload.planeVariable = VariableKey.z then planeValue else payload.manualZ
  pixelColor R (eqFn.getD (fallbackEvaluator R)) intFn (colorizers payload.colorScheme)
    payload.maxIterations startZValue cValue exponentValue

/-- RGBA byte stream of band k, row-major, 4 entries per pixel with alpha
255, as written into the band's Uint8ClampedArray. -/
def bandBuffer (R : RealFns) (payload : FractalRenderPayload) (eqFn : Option EquationEvaluator)
    (intFn : Option InteriorEvaluator) (k : ℕ) : List ℤ :=
  ((List.range (bandRows payload k)).map (fun y =>
    ((List.range payload.width).map (fun x =>
      let color := pixelAt R payload eqFn intFn x (k * rowsPerChunk payload + y)
      [color.1, color.2.1, color.2.2, 255])).flatten)).flatten

/-- Chunk response for band k. -/
def bandChunk (R : RealFns) (id : ℕ) (payload : FractalRenderPayload)
    (eqFn : Option EquationEvaluator) (intFn : Option InteriorEvaluator) (k : ℕ) : Response :=
  Response.chunk id (k * rowsPerChunk payload) (bandRows payload k) payload.width
    (bandBuffer R payload eqFn intFn k)

/-- Band loop of renderWithCpu: before each band the worker compares the
request id against the latest recorded id (activeId gives that latest id at
the time of the k-th check); a mismatch aborts, emitting nothing further
and skipping the terminal done. Returns the emitted chunks and whether the
loop completed. -/
def runBands (activeId : ℕ → ℕ) (id : ℕ) (mk : ℕ → Response) : List ℕ → List Response × Bool
  | [] => ([], true)
  | k :: ks =>
    if activeId k ≠ id then ([], false)
    else
      let rest := runBands activeId id mk ks
      (mk k :: rest.1, rest.2)

/-- renderWithCpu: stream one chunk per band, then a done response if no
newer request superseded this one mid-stream. No error response is ever
constructed on this path. -/
def renderWithCpu (R : RealFns) (activeId : ℕ → ℕ) (id : ℕ) (payload : FractalRenderPayload)
    (eqFn : Option EquationEvaluator) (intFn : Option InteriorEvaluator) : List Response :=
  let out := runBands activeId id (bandChunk R id payload eqFn intFn)
    (List.range (numBands payload))
  out.1 ++ (if out.2 then [Response.done id] else [])

/-! ## Soft-escape kernel, modelled from the spec

The repository's worker (src/workers/fractalWorker.ts) implements only the
escape-time mode; the soft render mode exists in src only as the RenderMode
declaration ("escape" | "soft") with the softSharpness payload field in the
fractalWorkerTypes module. The kernel below is therefore modelled from the
specification text (§4.4 soft-escape mode), not from worker code. -/

/-- RGB with rational channels, for the soft-escape blend. -/
structure RGBQ where
  r : ℚ
  g : ℚ
  b : ℚ
deriving DecidableEq

/-- Modelled from the spec: blend(interior, exterior, weight) mixes the two
colors channel-wise, the weight being the exterior share (weight 0 gives
the interior color untouched). -/
def blend (interior exterior : RGBQ) (weight : ℚ) : RGBQ :=
  ⟨interior.r * (1 - weight) + exterior.r * weight,
   interior.g * (1 - weight) + exterior.g * weight,
   interior.b * (1 - weight) + exterior.b * weight⟩

/-- Per-pixel state of the soft-escape loop: current z, the running survival
accumulator, the number of executed steps, and survival-weighted orbit
statistics. -/
structure SoftState where
  z : Complex
  survival : ℚ
  steps : ℕ
  magnitudeSum : ℚ
  angleSum : ℚ
  maxMagnitude : ℚ
deriving DecidableEq

/-- Modelled from the spec: one soft-escape step (missing from src/, which
has no soft-mode worker code). Apply the equation, measure the overflow
o = |z|² − 256, decay survival through the sigmoid when o > 0, and
accumulate orbit statistics weighted by the step's survival value. The
sigmoid itself is a parameter (it is 1/(1+e^−x), a transcendental). -/
def softStep (R : RealFns) (sigmoid : ℚ → ℚ) (softSharpness : ℚ) (ev : EquationEvaluator)
    (c e : Complex) (s : SoftState) : SoftState :=
  let z' := ev s.z c e
  let o := z'.re * z'.re + z'.im * z'.im - 256
  let survival' := if 0 < o then s.survival * sigmoid (-softSharpness * o) else s.survival
  let magnitude := R.hypot z'.re z'.im
  { z := z'
    survival := survival'
    steps := s.steps + 1
    magnitudeSum := s.magnitudeSum + survival' * magnitude
    angleSum := s.angleSum + survival' * R.atan2 z'.im z'.re
    maxMagnitude := max s.maxMagnitude (survival' * magnitude) }

/-- Modelled from the spec: the soft-escape per-pixel loop runs the step
exactly maxIterations times — there is no early-exit test anywhere in the
iteration. Survival starts at 1. -/
def softKernel (R : RealFns) (sigmoid : ℚ → ℚ) (softSharpness : ℚ) (ev : EquationEvaluator)
    (c e : Complex) (maxIterations : ℕ) (z0 : Complex) : SoftState :=
  (softStep R sigmoid softSharpness ev c e)^[maxIterations] ⟨z0, 1, 0, 0, 0, 0⟩

/-- Modelled from the spec: after the loop the pixel color is the blend of
the interior-mapper color and the exterior color with weight 1 − survival. -/
def softPixelColor (R : RealFns) (sigmoid : ℚ → ℚ) (softSharpness : ℚ) (ev : EquationEvaluator)
    (c e : Complex) (maxIterations : ℕ) (z0 : Complex)
    (interiorColor exteriorColor : RGBQ) : RGBQ :=
  blend interiorColor exteriorColor
    (1 - (softKernel R sigmoid softSharpness ev c e maxIterations z0).survival)

/-! ## Fixtures for witnesses and counterexamples, and claim-side
comparison definitions -/

/-- Concrete transcendental bundle used by witnesses and counterexamples
(its values are irrelevant to every property they instantiate). -/
def R0 : RealFns :=
  ⟨fun _ _ => 0, fun _ _ => 0, fun _ => 1, fun _ => 0, fun _ _ => 0, fun _ _ => 0⟩

/-- Definition following the claim's words (C7): z multiplied by itself
n times, the empty product being one. Stated for comparison with the
source's square-and-multiply powInt. -/
def repeatedMul (z : Complex) : ℕ → Complex
  | 0 => 1
  | n + 1 => z * repeatedMul z n

/-- Definition following the claim's words (C7): the empty product for
n = 0, the iterated product for positive n, and the reciprocal of the
positive power taken via div for negative n. -/
def specPow (z : Complex) (n : ℤ) : Complex :=
  if n = 0 then 1
  else if 0 < n then repeatedMul z n.toNat
  else Complex.div 1 (repeatedMul z (-n).toNat)

/-- Channel value that is an integer in [0, 255]. -/
def channelInRange (x : JNum) : Prop :=
  ∃ k : ℤ, x = JNum.fin (k : ℚ) ∧ 0 ≤ k ∧ k ≤ 255

/-- Raw interior callable for the C6 counterexample: a shape-correct user
formula copying orbit.magnitudeSum into every channel (in JavaScript:
return with r, g and b all set to orbit.magnitudeSum). -/
def rawCopyMagnitude (orbit : OrbitStatsJ) : RGBJ :=
  ⟨orbit.magnitudeSum, orbit.magnitudeSum, orbit.magnitudeSum⟩

/-- The wrapped evaluator compileInterior builds for rawCopyMagnitude. -/
def rawCopyMagnitudeEvaluator (orbit : OrbitStatsJ) : RGBJ :=
  sanitizeRgb (rawCopyMagnitude orbit)

/-- Orbit whose magnitude accumulator is NaN (e.g. after a NaN-producing
equation iterate). -/
def nanOrbit : OrbitStatsJ :=
  ⟨JNum.fin 1, JNum.nan, JNum.fin 0, JNum.fin 1, JNum.fin 0, JNum.fin 0⟩

/-- Raw interior callable for the C6 witness: an out-of-range but non-NaN
triple (300, −∞, 3.5). -/
def rawOutOfRange (_ : OrbitStatsJ) : RGBJ :=
  ⟨JNum.fin 300, JNum.ninf, JNum.fin (7 / 2)⟩

/-- The wrapped evaluator compileInterior builds for rawOutOfRange. -/
def rawOutOfRangeEvaluator (orbit : OrbitStatsJ) : RGBJ :=
  sanitizeRgb (rawOutOfRange orbit)

/-- Evaluator used by the C10 witness: the constant formula z ← 0 (never
escapes). -/
def constZeroEvaluator : EquationEvaluator := fun _ _ _ => ⟨0, 0⟩

/-- Payload for the C3 counterexample: the canonical default equation, an
interior source that differs from the default only by a trailing space, and
maxIterations 100. -/
def padInteriorPayload : FractalRenderPayload :=
  ⟨800, 600, ⟨0, 0⟩, 3, 100, VariableKey.c, ⟨0, 0⟩, ⟨0, 0⟩, ⟨2, 0⟩, ColorScheme.classic,
   defaultEquationSource, defaultInteriorSource ++ " ", 0⟩

/-- Payload of the spec §8 error scenario: the malformed equation source
"return 42;" fails compilation (modelled by the none equation evaluator). -/
def errorScenarioPayload : FractalRenderPayload :=
  ⟨1, 2, ⟨0, 0⟩, 1, 1, VariableKey.c, ⟨0, 0⟩, ⟨0, 0⟩, ⟨2, 0⟩, ColorScheme.classic,
   "return 42;", "", 0⟩

/-- Supersession schedule for the C5 witness: the latest id is 5 at the
first check and 6 afterwards. -/
def supersededAfterFirst : ℕ → ℕ := fun j => if j = 0 then 5 else 6

/-! ## Theorems

Claim theorems and the helper lemmas feeding them. -/

theorem qtrunc_of_nonneg {q : ℚ} (h : 0 ≤ q) : qtrunc q = ⌊q⌋ := by
  simp [qtrunc, h]

theorem jsMod_nonneg_lt {a m : ℚ} (ha : 0 ≤ a) (hm : 0 < m) :
    0 ≤ jsMod a m ∧ jsMod a m < m := by
  have hq : 0 ≤ a / m := div_nonneg ha hm.le
  have h1 : (⌊a / m⌋ : ℚ) ≤ a / m := Int.floor_le _
  have h2 : a / m < ⌊a / m⌋ + 1 := Int.lt_floor_add_one _
  rw [jsMod, qtrunc_of_nonneg hq]
  constructor
  · have := (mul_le_mul_right hm).mpr h1
    rw [div_mul_cancel₀ a hm.ne'] at this
    nlinarith
  · have := (mul_lt_mul_right hm).mpr h2
    rw [div_mul_cancel₀ a hm.ne'] at this
    nlinarith

theorem jsMod_of_neg {a m : ℚ} (ha : a < 0) (hm : 0 < m) :
    jsMod a m = -jsMod (-a) m := by
  have hq : ¬(0 ≤ a / m) := by
    simp only [not_le]
    exact div_neg_of_neg_of_pos ha hm
  have hq' : 0 ≤ -a / m := div_nonneg (by linarith) hm.le
  rw [jsMod, jsMod, qtrunc, if_neg hq, qtrunc_of_nonneg hq', neg_div]
  push_cast
  ring

theorem abs_jsMod_lt (a : ℚ) {m : ℚ} (hm : 0 < m) : |jsMod a m| < m := by
  rcases le_or_lt 0 a with ha | ha
  · obtain ⟨h1, h2⟩ := jsMod_nonneg_lt ha hm
    rw [abs_of_nonneg h1]; exact h2
  · obtain ⟨h1, h2⟩ := jsMod_nonneg_lt (a := -a) (by linarith) hm
    rw [jsMod_of_neg ha hm, abs_neg, abs_of_nonneg h1]; exact h2

theorem jsRound_range {q : ℚ} (h0 : 0 ≤ q) (h1 : q ≤ 255) :
    0 ≤ jsRound q ∧ jsRound q ≤ 255 := by
  constructor
  · exact Int.le_floor.mpr (by push_cast; linarith)
  · have : jsRound q < 256 := Int.floor_lt.mpr (by push_cast; linarith)
    omega

theorem channel_bound {l c comp : ℚ}
    (hcomp0 : 0 ≤ comp) (hcompc : comp ≤ c) (hcl : c ≤ 1 - |2 * l - 1|) :
    0 ≤ jsRound ((comp + (l - c / 2)) * 255) ∧
    jsRound ((comp + (l - c / 2)) * 255) ≤ 255 := by
  have h1 : 0 ≤ comp + (l - c / 2) := by
    rcases abs_cases (2 * l - 1) with ⟨he, _⟩ | ⟨he, _⟩ <;> rw [he] at hcl <;> nlinarith
  have h2 : comp + (l - c / 2) ≤ 1 := by
    rcases abs_cases (2 * l - 1) with ⟨he, _⟩ | ⟨he, _⟩ <;> rw [he] at hcl <;> nlinarith
  exact jsRound_range (by nlinarith) (by nlinarith)

/-- C9: for every real hue and saturation/lightness in [0, 1], the three
output channels of hslToRgb are integers (the codomain is ℤ) lying in
[0, 255]. -/
theorem hslToRgb_channels_in_range (h s l : ℚ)
    (hs0 : 0 ≤ s) (hs1 : s ≤ 1) (hl0 : 0 ≤ l) (hl1 : l ≤ 1) :
    0 ≤ (hslToRgb h s l).1 ∧ (hslToRgb h s l).1 ≤ 255 ∧
    0 ≤ (hslToRgb h s l).2.1 ∧ (hslToRgb h s l).2.1 ≤ 255 ∧
    0 ≤ (hslToRgb h s l).2.2 ∧ (hslToRgb h s l).2.2 ≤ 255 := by
  have h360 : (0 : ℚ) < 360 := by norm_num
  have ht : 0 ≤ jsMod h 360 + 360 := by
    have := abs_jsMod_lt h h360
    rw [abs_lt] at this
    linarith [this.1]
  obtain ⟨hhue0, hhue1⟩ := jsMod_nonneg_lt ht h360
  unfold hslToRgb
  set hue := jsMod (jsMod h 360 + 360) 360 with hhue
  have hp0 : 0 ≤ hue / 60 := by positivity
  set hp := hue / 60 with hhp
  obtain ⟨hm0, hm1⟩ := jsMod_nonneg_lt hp0 (show (0:ℚ) < 2 by norm_num)
  have habs : |jsMod hp 2 - 1| ≤ 1 := abs_le.mpr ⟨by linarith, by linarith⟩
  have habs2l : |2 * l - 1| ≤ 1 := abs_le.mpr ⟨by linarith, by linarith⟩
  set c := (1 - |2 * l - 1|) * s with hc
  have hc0 : 0 ≤ c := by
    have : 0 ≤ 1 - |2 * l - 1| := by linarith
    positivity
  have hcle : c ≤ 1 - |2 * l - 1| := by
    have h1 : 0 ≤ 1 - |2 * l - 1| := by linarith
    nlinarith
  set x := c * (1 - |jsMod hp 2 - 1|) with hx
  have hx0 : 0 ≤ x := by
    have : 0 ≤ 1 - |jsMod hp 2 - 1| := by linarith
    positivity
  have hxc : x ≤ c := by
    have hfac1 : 1 - |jsMod hp 2 - 1| ≤ 1 := by
      have := abs_nonneg (jsMod hp 2 - 1); linarith
    calc x = c * (1 - |jsMod hp 2 - 1|) := hx
      _ ≤ c * 1 := mul_le_mul_of_nonneg_left hfac1 hc0
      _ = c := mul_one c
  dsimp only
  split_ifs <;>
    exact ⟨(channel_bound (by first | exact le_refl 0 | assumption) (by first | exact le_refl c | assumption) hcle).1,
      (channel_bound (by first | exact le_refl 0 | assumption) (by first | exact le_refl c | assumption) hcle).2,
      (channel_bound (by first | exact le_refl 0 | assumption) (by first | exact le_refl c | assumption) hcle).1,
      (channel_bound (by first | exact le_refl 0 | assumption) (by first | exact le_refl c | assumption) hcle).2,
      (channel_bound (by first | exact le_refl 0 | assumption) (by first | exact le_refl c | assumption) hcle).1,
      (channel_bound (by first | exact le_refl 0 | assumption) (by first | exact le_refl c | assumption) hcle).2⟩

/-- Witness for C9 at h = 0, s = 1/2, l = 1/2. -/
theorem hslToRgb_channels_in_range_witness :
    (0 : ℚ) ≤ 1 / 2 ∧ (1 / 2 : ℚ) ≤ 1 ∧
    (0 ≤ (hslToRgb 0 (1 / 2) (1 / 2)).1 ∧ (hslToRgb 0 (1 / 2) (1 / 2)).1 ≤ 255 ∧
     0 ≤ (hslToRgb 0 (1 / 2) (1 / 2)).2.1 ∧ (hslToRgb 0 (1 / 2) (1 / 2)).2.1 ≤ 255 ∧
     0 ≤ (hslToRgb 0 (1 / 2) (1 / 2)).2.2 ∧ (hslToRgb 0 (1 / 2) (1 / 2)).2.2 ≤ 255) :=
  ⟨by norm_num, by norm_num,
    hslToRgb_channels_in_range 0 (1 / 2) (1 / 2) (by norm_num) (by norm_num) (by norm_num) (by norm_num)⟩

theorem div_denominator_floor (a b : Complex) :
    Complex.div a b =
      ⟨(a.re * b.re + a.im * b.im) / Complex.divDenom b,
       (a.im * b.re - a.re * b.im) / Complex.divDenom b⟩ ∧
    0 < Complex.divDenom b ∧
    Complex.divDenom ⟨0, 0⟩ = 1 / 1000000000000 := by
  refine ⟨rfl, ?_, by norm_num [Complex.divDenom]⟩
  rw [Complex.divDenom]
  split_ifs with hz
  · norm_num
  · rcases lt_or_eq_of_le (add_nonneg (mul_self_nonneg b.re) (mul_self_nonneg b.im)) with hlt | heq
    · exact hlt
    · exact absurd heq.symm hz

/-- C8 counterexample: at the finite inputs a = b = {1e200, 0}, the double
computation of div overflows: b.re*b.re rounds to Infinity, the || 1e-12
floor never fires because Infinity is truthy, and the real component
becomes Infinity / Infinity = NaN. So div does produce NaN for finite
inputs, refuting the claim as stated; the 1e-12 floor guards only the
exactly-zero denominator. -/
theorem div_overflow_nan :
    jsDiv ⟨JNum.fin ((10 : ℚ) ^ 200), JNum.fin 0⟩ ⟨JNum.fin ((10 : ℚ) ^ 200), JNum.fin 0⟩ =
      ⟨JNum.nan, JNum.fin 0⟩ ∧
    (JNum.fin ((10 : ℚ) ^ 200)).isFinite = true ∧ (JNum.fin (0 : ℚ)).isFinite = true := by
  have hbig : (2 : ℚ) ^ 1024 ≤ (10 : ℚ) ^ 200 * (10 : ℚ) ^ 200 := by norm_num
  have hsq : JNum.jmul (JNum.fin ((10 : ℚ) ^ 200)) (JNum.fin ((10 : ℚ) ^ 200)) = JNum.inf := by
    rw [JNum.jmul, JNum.ovf, if_pos hbig]
  have hz : JNum.jmul (JNum.fin (0 : ℚ)) (JNum.fin (0 : ℚ)) = JNum.fin 0 := by
    rw [JNum.jmul, JNum.ovf, if_neg (by norm_num), if_neg (by norm_num)]
    norm_num
  have hzb : JNum.jmul (JNum.fin (0 : ℚ)) (JNum.fin ((10 : ℚ) ^ 200)) = JNum.fin 0 := by
    rw [JNum.jmul, JNum.ovf, if_neg (by norm_num), if_neg (by norm_num)]
    norm_num
  have hbz : JNum.jmul (JNum.fin ((10 : ℚ) ^ 200)) (JNum.fin (0 : ℚ)) = JNum.fin 0 := by
    rw [JNum.jmul, JNum.ovf, if_neg (by norm_num), if_neg (by norm_num)]
    norm_num
  refine ⟨?_, rfl, rfl⟩
  rw [jsDiv]
  dsimp only
  rw [hsq, hz, hzb, hbz]
  rw [show JNum.jadd JNum.inf (JNum.fin 0) = JNum.inf from rfl]
  rw [show JNum.jor JNum.inf (JNum.fin (1 / 1000000000000)) = JNum.inf from rfl]
  rw [show JNum.jsub (JNum.fin 0) (JNum.fin 0) = JNum.ovf (0 + -0) from rfl]
  rw [show JNum.ovf ((0 : ℚ) + -0) = JNum.fin 0 by
    rw [JNum.ovf, if_neg (by norm_num), if_neg (by norm_num)]; norm_num]
  rfl

theorem jmul_fin_of_abs_lt {a b : ℚ} (h : |a * b| < 2 ^ 1024) :
    JNum.jmul (JNum.fin a) (JNum.fin b) = JNum.fin (a * b) := by
  obtain ⟨h1, h2⟩ := abs_lt.mp h
  rw [JNum.jmul, JNum.ovf, if_neg (by linarith), if_neg (by linarith)]

theorem jadd_fin_of_abs_lt {a b : ℚ} (h : |a + b| < 2 ^ 1024) :
    JNum.jadd (JNum.fin a) (JNum.fin b) = JNum.fin (a + b) := by
  obtain ⟨h1, h2⟩ := abs_lt.mp h
  rw [JNum.jadd, JNum.ovf, if_neg (by linarith), if_neg (by linarith)]

theorem jor_denom_eq (b : Complex) :
    JNum.jor (JNum.fin (b.re * b.re + b.im * b.im)) (JNum.fin (1 / 1000000000000)) =
      JNum.fin (Complex.divDenom b) := by
  rw [JNum.jor, JNum.truthy, Complex.divDenom]
  by_cases hz : b.re * b.re + b.im * b.im = 0
  · rw [if_pos hz, if_pos hz]
    rfl
  · rw [if_neg hz, if_neg hz]
    rfl

/-- C8 (amended): div never raises for any inputs (it is total, and an
exactly-zero denominator b.re²+b.im² is replaced by 1e-12 instead of
dividing by zero); and for finite a, b all of whose intermediate products,
sums and quotients stay within the double range, the components of
div(a, b) are finite — neither NaN nor Infinity — and equal the exact
rational computation with the floored denominator. For finite inputs whose
intermediates overflow, NaN and Infinity do occur (see the
counterexample), so the original unconditional claim fails. -/
theorem jsDiv_eq_div_of_no_overflow (a b : Complex)
    (hb1 : b.re * b.re < 2 ^ 1024) (hb2 : b.im * b.im < 2 ^ 1024)
    (hbs : b.re * b.re + b.im * b.im < 2 ^ 1024)
    (hn1 : |a.re * b.re| < 2 ^ 1024) (hn2 : |a.im * b.im| < 2 ^ 1024)
    (hns : |a.re * b.re + a.im * b.im| < 2 ^ 1024)
    (hm1 : |a.im * b.re| < 2 ^ 1024) (hm2 : |a.re * b.im| < 2 ^ 1024)
    (hms : |a.im * b.re - a.re * b.im| < 2 ^ 1024)
    (hq1 : |(a.re * b.re + a.im * b.im) / Complex.divDenom b| < 2 ^ 1024)
    (hq2 : |(a.im * b.re - a.re * b.im) / Complex.divDenom b| < 2 ^ 1024) :
    jsDiv ⟨JNum.fin a.re, JNum.fin a.im⟩ ⟨JNum.fin b.re, JNum.fin b.im⟩ =
      ⟨JNum.fin (Complex.div a b).re, JNum.fin (Complex.div a b).im⟩ := by
  have habs : ∀ q : ℚ, 0 ≤ q → q < 2 ^ 1024 → |q| < 2 ^ 1024 := by
    intro q h0 h1
    rw [abs_of_nonneg h0]
    exact h1
  have hD : Complex.divDenom b ≠ 0 := (div_denominator_floor a b).2.1.ne'
  have hdiv_fin : ∀ n : ℚ, |n / Complex.divDenom b| < 2 ^ 1024 →
      JNum.jdiv (JNum.fin n) (JNum.fin (Complex.divDenom b)) =
        JNum.fin (n / Complex.divDenom b) := by
    intro n hn
    obtain ⟨h1, h2⟩ := abs_lt.mp hn
    rw [JNum.jdiv, if_neg hD, JNum.ovf, if_neg (by linarith), if_neg (by linarith)]
  rw [jsDiv]
  dsimp only
  rw [jmul_fin_of_abs_lt (habs _ (mul_self_nonneg b.re) hb1),
    jmul_fin_of_abs_lt (habs _ (mul_self_nonneg b.im) hb2),
    jadd_fin_of_abs_lt (habs _ (add_nonneg (mul_self_nonneg b.re) (mul_self_nonneg b.im)) hbs),
    jor_denom_eq,
    jmul_fin_of_abs_lt hn1, jmul_fin_of_abs_lt hn2, jadd_fin_of_abs_lt hns,
    jmul_fin_of_abs_lt hm1, jmul_fin_of_abs_lt hm2,
    show JNum.jsub (JNum.fin (a.im * b.re)) (JNum.fin (a.re * b.im)) =
      JNum.jadd (JNum.fin (a.im * b.re)) (JNum.fin (-(a.re * b.im))) from rfl,
    jadd_fin_of_abs_lt (by rw [← sub_eq_add_neg]; exact hms),
    ← sub_eq_add_neg,
    hdiv_fin _ hq1, hdiv_fin _ hq2]
  rfl

/-- Witness for the amended C8 at a = (1, 2), b = (3, 4): every
intermediate stays far inside the double range and the result is the exact
(11/25, 2/25). -/
theorem jsDiv_eq_div_of_no_overflow_witness :
    |(1 : ℚ) * 3 + 2 * 4| < 2 ^ 1024 ∧
    |((1 : ℚ) * 3 + 2 * 4) / Complex.divDenom ⟨3, 4⟩| < 2 ^ 1024 ∧
    jsDiv ⟨JNum.fin (1 : ℚ), JNum.fin (2 : ℚ)⟩ ⟨JNum.fin (3 : ℚ), JNum.fin (4 : ℚ)⟩ =
      ⟨JNum.fin (Complex.div ⟨1, 2⟩ ⟨3, 4⟩).re, JNum.fin (Complex.div ⟨1, 2⟩ ⟨3, 4⟩).im⟩ :=
  ⟨by norm_num, by norm_num [Complex.divDenom, abs_of_nonneg],
    jsDiv_eq_div_of_no_overflow ⟨1, 2⟩ ⟨3, 4⟩ (by norm_num) (by norm_num) (by norm_num)
      (by norm_num) (by norm_num) (by norm_num) (by norm_num) (by norm_num) (by norm_num)
      (by norm_num [Complex.divDenom, abs_of_nonneg]) (by norm_num [Complex.divDenom, abs_of_nonneg])⟩

/-! ### Integer powers (C7) -/

theorem powLoop_eq (e : ℕ) : ∀ r c : Complex, powLoop r c e = r * c ^ e := by
  induction e using Nat.strong_induction_on with
  | _ e ih =>
    intro r c
    rw [powLoop]
    by_cases he : e = 0
    · simp [he]
    · rw [if_neg he, ih (e / 2) (Nat.div_lt_self (Nat.pos_of_ne_zero he) one_lt_two)]
      by_cases hodd : e % 2 = 1
      · have he2 : 2 * (e / 2) + 1 = e := by omega
        rw [if_pos hodd]
        calc r * c * (c * c) ^ (e / 2)
            = r * (c * (c ^ 2) ^ (e / 2)) := by rw [pow_two, mul_assoc]
          _ = r * (c * c ^ (2 * (e / 2))) := by rw [← pow_mul]
          _ = r * c ^ (2 * (e / 2) + 1) := by rw [← pow_succ']
          _ = r * c ^ e := by rw [he2]
      · have he2 : 2 * (e / 2) = e := by omega
        rw [if_neg hodd]
        calc r * (c * c) ^ (e / 2)
            = r * (c ^ 2) ^ (e / 2) := by rw [pow_two]
          _ = r * c ^ (2 * (e / 2)) := by rw [← pow_mul]
          _ = r * c ^ e := by rw [he2]

theorem repeatedMul_eq_pow (z : Complex) (k : ℕ) : repeatedMul z k = z ^ k := by
  induction k with
  | zero => rw [repeatedMul, pow_zero]
  | succ n ihn => rw [repeatedMul, ihn, pow_succ']

/-- C7 counterexample: at z = 0, n = 0 the source's pow returns {0,0}
(the |z| == 0 guard precedes the integer-exponent path), which differs from
the claim's empty product {1,0}; so the claim fails as stated for every z. -/
theorem pow_zero_zero_ne_empty_product :
    pow R0 ⟨0, 0⟩ ⟨((0 : ℤ) : ℚ), 0⟩ = ⟨0, 0⟩ ∧
    specPow ⟨0, 0⟩ 0 = ⟨1, 0⟩ ∧
    (⟨0, 0⟩ : Complex) ≠ ⟨1, 0⟩ := by
  refine ⟨?_, ?_, ?_⟩
  · rw [pow, if_pos ⟨rfl, rfl⟩]
    rfl
  · rw [specPow, if_pos rfl]
    rfl
  · intro hcontra
    have := (Complex.ext_iff.mp hcontra).1
    norm_num at this

/-- C7 (amended): for every nonzero z and every integer n with |n| ≤ 32,
pow(z, n) equals exactly the claim's iterated product — the empty product
for n = 0, z multiplied by itself n times for positive n, and the
reciprocal of the positive power taken via div for negative n. (The
rational embedding is exact, so equality within floating tolerance is
strengthened to equality; at z = 0 the source returns {0,0} instead.) -/
theorem pow_int_exponent_eq_repeated_mul (R : RealFns) (z : Complex) (n : ℤ)
    (hz : ¬(z.re = 0 ∧ z.im = 0)) (hn : |n| ≤ 32) :
    pow R z ⟨(n : ℚ), 0⟩ = specPow z n := by
  have him : |(⟨(n : ℚ), 0⟩ : Complex).im| < 1 / 1000000000 := by
    simp only []
    norm_num
  have hint : isIntegerQ (⟨(n : ℚ), 0⟩ : Complex).re = true := by
    simp [isIntegerQ, Rat.intCast_den]
  have habs : |(⟨(n : ℚ), 0⟩ : Complex).re| ≤ 32 := by
    simp only []
    rw [← Int.cast_abs]
    exact_mod_cast hn
  rw [pow, if_neg hz, if_pos him, if_pos ⟨hint, habs⟩]
  have hnum : (⟨(n : ℚ), 0⟩ : Complex).re.num = n := Rat.intCast_num n
  rw [hnum, powInt, specPow]
  split_ifs
  all_goals first
    | rfl
    | (exfalso; omega)
    | rw [powLoop_eq, one_mul, repeatedMul_eq_pow]

/-- Witness for the amended C7 at z = 2, n = 3. -/
theorem pow_int_exponent_eq_repeated_mul_witness :
    ¬((⟨2, 0⟩ : Complex).re = 0 ∧ (⟨2, 0⟩ : Complex).im = 0) ∧ |(3 : ℤ)| ≤ 32 ∧
    pow R0 ⟨2, 0⟩ ⟨((3 : ℤ) : ℚ), 0⟩ = specPow ⟨2, 0⟩ 3 :=
  ⟨by norm_num, by norm_num,
    pow_int_exponent_eq_repeated_mul R0 ⟨2, 0⟩ 3 (by norm_num) (by norm_num)⟩

/-! ### Interior-mapper sanitization (C6) -/

/-- C6 counterexample: compileInterior succeeds on rawCopyMagnitude (the
smoke test sees only finite fields), yet on an orbit with a NaN field the
compiled evaluator returns NaN channels: Math.round, Math.min and Math.max
all propagate NaN, so the clamp-and-round exit does not produce an integer
in [0, 255] for every input orbit. -/
theorem compileInterior_nan_escapes_sanitize :
    compileInterior rawCopyMagnitude = some rawCopyMagnitudeEvaluator ∧
    rawCopyMagnitudeEvaluator nanOrbit = ⟨JNum.nan, JNum.nan, JNum.nan⟩ ∧
    ¬channelInRange JNum.nan := by
  refine ⟨rfl, by decide, ?_⟩
  rintro ⟨k, hk, -, -⟩
  exact JNum.noConfusion hk

theorem clamp_channel_in_range (x : JNum) (hx : x ≠ JNum.nan) :
    channelInRange (JNum.jmax (JNum.fin 0) (JNum.jmin (JNum.fin 255) (JNum.jround x))) := by
  cases x with
  | nan => exact absurd rfl hx
  | inf =>
    refine ⟨255, ?_, by norm_num, by norm_num⟩
    show JNum.fin (max 0 255) = JNum.fin ((255 : ℤ) : ℚ)
    norm_num
  | ninf =>
    refine ⟨0, ?_, by norm_num, by norm_num⟩
    show JNum.fin 0 = JNum.fin ((0 : ℤ) : ℚ)
    norm_num
  | fin q =>
    refine ⟨max 0 (min 255 ⌊q + 1 / 2⌋), ?_, le_max_left _ _,
      max_le (by norm_num) (min_le_left _ _)⟩
    show JNum.fin (max 0 (min 255 ((⌊q + 1 / 2⌋ : ℤ) : ℚ))) = _
    rw [show (max 0 (min 255 ((⌊q + 1 / 2⌋ : ℤ) : ℚ))) = ((max 0 (min 255 ⌊q + 1 / 2⌋) : ℤ) : ℚ) by push_cast; ring_nf]

/-- C6 (amended): for every raw interior callable accepted by
compileInterior and every orbit at which the raw callable's output channels
are not NaN, the wrapped evaluator returns channels that are integers in
[0, 255] (infinities are clamped to the range ends); a NaN output channel,
however, passes through the clamp unchanged, so the original claim holds
only for non-NaN raw outputs. -/
theorem compileInterior_sanitizes_non_nan (raw ev : OrbitStatsJ → RGBJ) (orbit : OrbitStatsJ)
    (hcomp : compileInterior raw = some ev)
    (hr : (raw orbit).r ≠ JNum.nan) (hg : (raw orbit).g ≠ JNum.nan)
    (hb : (raw orbit).b ≠ JNum.nan) :
    channelInRange (ev orbit).r ∧ channelInRange (ev orbit).g ∧ channelInRange (ev orbit).b := by
  have hev : ev = fun o => sanitizeRgb (raw o) := by
    have := hcomp
    rw [compileInterior, isRgbLike, if_pos rfl] at this
    exact (Option.some_injective _ this).symm
  subst hev
  exact ⟨clamp_channel_in_range _ hr, clamp_channel_in_range _ hg, clamp_channel_in_range _ hb⟩

/-- Witness for the amended C6 on the rawOutOfRange callable at the
canonical test orbit. -/
theorem compileInterior_sanitizes_non_nan_witness :
    compileInterior rawOutOfRange = some rawOutOfRangeEvaluator ∧
    (channelInRange (rawOutOfRangeEvaluator testOrbit).r ∧
     channelInRange (rawOutOfRangeEvaluator testOrbit).g ∧
     channelInRange (rawOutOfRangeEvaluator testOrbit).b) :=
  ⟨rfl, compileInterior_sanitizes_non_nan rawOutOfRange rawOutOfRangeEvaluator testOrbit rfl
    (by decide) (by decide) (by decide)⟩

/-! ### Escape-time kernel (C1) -/

theorem iterLoop_zero (R : RealFns) (ev : EquationEvaluator) (c e : Complex)
    (iter : ℕ) (s : KState) : iterLoop R ev c e 0 iter s = (iter, s) := rfl

theorem iterLoop_succ (R : RealFns) (ev : EquationEvaluator) (c e : Complex)
    (remaining iter : ℕ) (s : KState) :
    iterLoop R ev c e (remaining + 1) iter s =
      (let s' := stepOrbit R ev c e s
       if ¬(isFiniteQ s'.z.re && isFiniteQ s'.z.im) then (iter + remaining + 1, s')
       else if s'.z.re * s'.z.re + s'.z.im * s'.z.im > escapeRadius then (iter, s')
       else iterLoop R ev c e remaining (iter + 1) s') := rfl

/-- First kernel iterate of the C1 failing input: with the default equation
z ← z^2 + c, z0 = 0, c = 5 the first iterate is z = 5. -/
theorem stepOrbit_failing_input :
    stepOrbit R0 (fallbackEvaluator R0) ⟨5, 0⟩ ⟨2, 0⟩ ⟨⟨0, 0⟩, 0, 0, 0, 0⟩ =
      ⟨⟨5, 0⟩, 1, 0, 0, 0⟩ := by
  rw [stepOrbit]
  have hz : fallbackEvaluator R0 ⟨0, 0⟩ ⟨5, 0⟩ ⟨2, 0⟩ = ⟨5, 0⟩ := by
    rw [fallbackEvaluator, pow, if_pos ⟨rfl, rfl⟩]
    rw [Complex.ext_iff]
    norm_num
  rw [hz]
  simp [R0]

/-- C1: evaluation of the scalar kernel at the failing input — the default
equation z ← z^exponent + c with exponent 2, c = 5, z0 = 0 and
maxIterations = 10. After the first iteration z = 5 with squared magnitude
25, which does not exceed 256; the claim therefore requires the loop to
continue, but the source compares the squared magnitude against
escapeRadius = 16 without squaring it, so the loop stops and classifies the
pixel Escaped at iteration 0 (the returned iter 0 < 10 selects the exterior
branch). The WebGL shader in the same worker squares the constant
(ESCAPE_RADIUS * ESCAPE_RADIUS = 256), so the two backends disagree. -/
theorem escape_check_compares_unsquared_radius :
    (cpuKernel R0 (fallbackEvaluator R0) ⟨5, 0⟩ ⟨2, 0⟩ 10 ⟨0, 0⟩).1 = 0 ∧
    (cpuKernel R0 (fallbackEvaluator R0) ⟨5, 0⟩ ⟨2, 0⟩ 10 ⟨0, 0⟩).2.z = ⟨5, 0⟩ ∧
    ((5 : ℚ) * 5 + 0 * 0 ≤ 256) ∧ (0 : ℕ) < 10 := by
  have hrun : cpuKernel R0 (fallbackEvaluator R0) ⟨5, 0⟩ ⟨2, 0⟩ 10 ⟨0, 0⟩ =
      (0, ⟨⟨5, 0⟩, 1, 0, 0, 0⟩) := by
    rw [cpuKernel, show (10 : ℕ) = 9 + 1 from rfl, iterLoop_succ, stepOrbit_failing_input]
    rw [if_neg (by norm_num [isFiniteQ]), if_pos (by norm_num [escapeRadius])]
  rw [hrun]
  refine ⟨rfl, rfl, by norm_num, by norm_num⟩

/-! ### Interior fallback coloring (C10) -/

/-- C10: in the scalar path, when the interior mapper failed to compile
(compileInterior produced no callable), every pixel whose loop reaches
iter = maxIterations is colored by the selected exterior palette colorizer
at shade = iter / maxIterations = 1. -/
theorem interior_fallback_shade_one (R : RealFns) (ev : EquationEvaluator)
    (cz : ℚ → ℤ × ℤ × ℤ) (maxIterations : ℕ) (z0 c e : Complex)
    (hmax : 0 < maxIterations)
    (hiter : (cpuKernel R ev c e maxIterations z0).1 = maxIterations) :
    pixelColor R ev none cz maxIterations z0 c e = cz 1 := by
  have hne : ((maxIterations : ℚ)) ≠ 0 := by
    exact_mod_cast hmax.ne'
  unfold pixelColor
  dsimp only
  rw [hiter, if_pos rfl, div_self hne]

theorem cpuKernel_constZero_iter :
    (cpuKernel R0 constZeroEvaluator ⟨0, 0⟩ ⟨0, 0⟩ 1 ⟨0, 0⟩).1 = 1 := by
  have hstep : stepOrbit R0 constZeroEvaluator ⟨0, 0⟩ ⟨0, 0⟩ ⟨⟨0, 0⟩, 0, 0, 0, 0⟩ =
      ⟨⟨0, 0⟩, 1, 0, 0, 0⟩ := by
    rw [stepOrbit]
    simp [constZeroEvaluator, R0]
  rw [cpuKernel, show (1 : ℕ) = 0 + 1 from rfl, iterLoop_succ, hstep]
  rw [if_neg (by norm_num [isFiniteQ]), if_neg (by norm_num [escapeRadius]), iterLoop_zero]

/-- Witness for C10: constant-zero evaluator, maxIterations = 1, classic
palette. -/
theorem interior_fallback_shade_one_witness :
    0 < 1 ∧
    (cpuKernel R0 constZeroEvaluator ⟨0, 0⟩ ⟨0, 0⟩ 1 ⟨0, 0⟩).1 = 1 ∧
    pixelColor R0 constZeroEvaluator none (colorizers ColorScheme.classic) 1 ⟨0, 0⟩ ⟨0, 0⟩ ⟨0, 0⟩ =
      colorizers ColorScheme.classic 1 :=
  ⟨by norm_num, cpuKernel_constZero_iter,
    interior_fallback_shade_one R0 _ _ 1 _ _ _ (by norm_num) cpuKernel_constZero_iter⟩

/-! ### Soft-escape mode (C2) -/

theorem softStep_iterate_steps (R : RealFns) (sigmoid : ℚ → ℚ) (softSharpness : ℚ)
    (ev : EquationEvaluator) (c e : Complex) (n : ℕ) (s : SoftState) :
    ((softStep R sigmoid softSharpness ev c e)^[n] s).steps = s.steps + n := by
  induction n with
  | zero => simp
  | succ k ihk =>
    rw [Function.iterate_succ_apply']
    have hstep : ∀ t : SoftState, (softStep R sigmoid softSharpness ev c e t).steps = t.steps + 1 :=
      fun t => rfl
    rw [hstep, ihk]
    omega

/-- C2: the soft-escape loop performs exactly maxIterations steps for every
evaluator, sharpness and starting point (no early exit), and the final
pixel color is the blend of the interior-mapper color and the exterior
color with weight 1 − survival. -/
theorem soft_mode_full_iterations_and_blend (R : RealFns) (sigmoid : ℚ → ℚ)
    (softSharpness : ℚ) (ev : EquationEvaluator) (c e : Complex) (maxIterations : ℕ)
    (z0 : Complex) (interiorColor exteriorColor : RGBQ) :
    (softKernel R sigmoid softSharpness ev c e maxIterations z0).steps = maxIterations ∧
    softPixelColor R sigmoid softSharpness ev c e maxIterations z0 interiorColor exteriorColor =
      blend interiorColor exteriorColor
        (1 - (softKernel R sigmoid softSharpness ev c e maxIterations z0).survival) := by
  constructor
  · rw [softKernel, softStep_iterate_steps]
    simp
  · rfl

/-! ### Accelerated-backend eligibility (C3) -/

/-- C3 counterexample: the worker compares the interior source only after
whitespace normalization, so a request whose interior source is not exactly
the default (here: the default plus a trailing space) is still dispatched
to the WebGL backend — refuting both the "exactly the defaults" condition
and the promise that the scalar path is used whenever it fails. (There is
also no exterior mapper source anywhere in the payload.) -/
theorem webgl_used_with_nonexact_interior :
    dispatch true true padInteriorPayload = Backend.webgl ∧
    padInteriorPayload.interiorSource ≠ defaultInteriorSource := by
  exact ⟨by decide, by decide⟩

/-- C3 (amended): the WebGL backend is used only when OffscreenCanvas is
available, the normalized equation source matches one of the two canonical
formulas, the interior source equals the default after whitespace
normalization (there is no exterior mapper slot), maxIterations is at most
4096, and the WebGL render did not throw; whenever the eligibility test
fails the scalar path is used. -/
theorem webgl_backend_eligibility (off gl : Bool) (p : FractalRenderPayload) :
    (dispatch off gl p = Backend.webgl →
      off = true ∧ gl = true ∧
      (getEquationMode (normalizeEquation p.equationSource)).isSome = true ∧
      normalizeInterior p.interiorSource = DEFAULT_INTERIOR_NORMALIZED ∧
      p.maxIterations ≤ MAX_SHADER_ITERATIONS) ∧
    (useWebGL off p = false → dispatch off gl p = Backend.cpu) := by
  constructor
  · intro hd
    rw [dispatch] at hd
    by_cases hc : (useWebGL off p && gl) = true
    · have hu := hc
      rw [useWebGL] at hu
      simp only [Bool.and_eq_true, decide_eq_true_eq] at hu
      exact ⟨hu.1.1.1.1, hu.2, hu.1.1.1.2, hu.1.1.2, hu.1.2⟩
    · rw [if_neg (by simpa using hc)] at hd
      exact Backend.noConfusion hd
  · intro hu
    rw [dispatch, hu]
    simp

/-- Witness for the amended C3 at the padded-interior payload. -/
theorem webgl_backend_eligibility_witness :
    (getEquationMode (normalizeEquation padInteriorPayload.equationSource)).isSome = true ∧
    normalizeInterior padInteriorPayload.interiorSource = DEFAULT_INTERIOR_NORMALIZED ∧
    padInteriorPayload.maxIterations ≤ MAX_SHADER_ITERATIONS :=
  ((webgl_backend_eligibility true true padInteriorPayload).1 (by decide)).2.2

/-! ### Compilation failure handling on the scalar path (C4) -/

theorem runBands_const_active (id : ℕ) (mk : ℕ → Response) (l : List ℕ) :
    runBands (fun _ => id) id mk l = (l.map mk, true) := by
  induction l with
  | nil => rfl
  | cons k ks ih => simp [runBands, ih]

/-- C4 (amended): when compilation of the equation and interior sources
fails (compileEquation and compileInterior return no callable), the scalar
scheduler emits no Error response at all: it falls back to the default
evaluator and palette and still produces the full frame — one chunk per
band followed by Done. -/
theorem compile_failure_full_frame_no_error (R : RealFns) (id : ℕ) (p : FractalRenderPayload) :
    renderWithCpu R (fun _ => id) id p none none =
      (List.range (numBands p)).map (bandChunk R id p none none) ++ [Response.done id] ∧
    (renderWithCpu R (fun _ => id) id p none none).all (fun r => !r.isError) = true := by
  have hout : renderWithCpu R (fun _ => id) id p none none =
      (List.range (numBands p)).map (bandChunk R id p none none) ++ [Response.done id] := by
    rw [renderWithCpu, runBands_const_active]
    simp
  refine ⟨hout, ?_⟩
  rw [hout, List.all_append, Bool.and_eq_true]
  refine ⟨?_, rfl⟩
  rw [List.all_eq_true]
  intro r hr
  obtain ⟨k, -, hk⟩ := List.mem_map.mp hr
  rw [← hk, bandChunk]
  rfl

theorem errorScenario_numBands : numBands errorScenarioPayload = 1 := by
  norm_num [numBands, rowsPerChunk, errorScenarioPayload]

theorem errorScenario_output :
    renderWithCpu R0 (fun _ => 7) 7 errorScenarioPayload none none =
      [bandChunk R0 7 errorScenarioPayload none none 0, Response.done 7] := by
  rw [renderWithCpu, errorScenario_numBands]
  rw [show List.range 1 = [0] from rfl]
  simp [runBands]

/-- C4 counterexample: a request whose equation and interior compilations
both failed still yields a full frame — no Error response, a Chunk, and a
terminal Done — contradicting the claim that the scheduler emits
Error immediately and performs no pixel work. -/
theorem failed_compile_emits_no_error_and_full_frame :
    (renderWithCpu R0 (fun _ => 7) 7 errorScenarioPayload none none).all
      (fun r => !r.isError) = true ∧
    Response.done 7 ∈ renderWithCpu R0 (fun _ => 7) 7 errorScenarioPayload none none ∧
    (renderWithCpu R0 (fun _ => 7) 7 errorScenarioPayload none none).length = 2 := by
  rw [errorScenario_output]
  refine ⟨?_, ?_, rfl⟩
  · rw [show bandChunk R0 7 errorScenarioPayload none none 0 =
      Response.chunk 7 (0 * rowsPerChunk errorScenarioPayload) (bandRows errorScenarioPayload 0)
        errorScenarioPayload.width (bandBuffer R0 errorScenarioPayload none none 0) from rfl]
    rfl
  · simp

/-! ### Request supersession on the scalar path (C5) -/

theorem runBands_chunk_mem (activeId : ℕ → ℕ) (id : ℕ) (mk : ℕ → Response) (l : List ℕ)
    (r : Response) (hr : r ∈ (runBands activeId id mk l).1) :
    ∃ k, k ∈ l ∧ r = mk k ∧ activeId k = id := by
  induction l with
  | nil => simp [runBands] at hr
  | cons k ks ih =>
    rw [runBands] at hr
    by_cases hk : activeId k ≠ id
    · rw [if_pos hk] at hr
      simp at hr
    · rw [if_neg hk] at hr
      push_neg at hk
      rcases List.mem_cons.mp hr with h | h
      · exact ⟨k, List.mem_cons_self k ks, h, hk⟩
      · obtain ⟨k', hk', hr', ha'⟩ := ih h
        exact ⟨k', List.mem_cons_of_mem k hk', hr', ha'⟩

theorem rowsPerChunk_pos (p : FractalRenderPayload) : 0 < rowsPerChunk p :=
  Nat.lt_of_lt_of_le (by norm_num) (le_max_left 2 (p.height / 180))

/-- C5: the band loop rechecks the latest recorded request id before every
band; once a newer id is recorded (every check from index m on sees an id
different from this request's), no chunk whose startY lies at band m or
later is ever emitted — the output can only contain chunks of strictly
earlier bands (which are not retracted). -/
theorem no_chunks_after_supersession (R : RealFns) (activeId : ℕ → ℕ) (id : ℕ)
    (p : FractalRenderPayload) (eqFn : Option EquationEvaluator)
    (intFn : Option InteriorEvaluator) (m : ℕ)
    (hsup : ∀ j, m ≤ j → activeId j ≠ id) :
    ∀ sY rows w buf,
      Response.chunk id sY rows w buf ∈ renderWithCpu R activeId id p eqFn intFn →
      sY < m * rowsPerChunk p := by
  intro sY rows w buf hmem
  rw [renderWithCpu] at hmem
  rcases List.mem_append.mp hmem with h | h
  · obtain ⟨k, -, heq, hact⟩ := runBands_chunk_mem _ _ _ _ _ h
    rw [bandChunk] at heq
    have hsY : sY = k * rowsPerChunk p := (Response.chunk.injEq _ _ _ _ _ _ _ _ _ _).mp heq |>.2.1
    have hk : k < m := by
      by_contra hge
      push_neg at hge
      exact hsup k hge hact
    rw [hsY]
    exact (Nat.mul_lt_mul_right (rowsPerChunk_pos p)).mpr hk
  · by_cases hdone : (runBands activeId id (bandChunk R id p eqFn intFn)
      (List.range (numBands p))).2 = true
    · rw [if_pos hdone] at h
      rcases List.mem_singleton.mp h with hcontra
      exact Response.noConfusion hcontra
    · rw [if_neg hdone] at h
      simp at h

theorem supersededAfterFirst_newer : ∀ j, 1 ≤ j → supersededAfterFirst j ≠ 5 := by
  intro j hj
  have hj0 : j ≠ 0 := by omega
  simp [supersededAfterFirst, hj0]

theorem supersession_witness_output :
    renderWithCpu R0 supersededAfterFirst 5 errorScenarioPayload none none =
      [bandChunk R0 5 errorScenarioPayload none none 0, Response.done 5] := by
  rw [renderWithCpu, errorScenario_numBands]
  rw [show List.range 1 = [0] from rfl]
  simp [runBands, supersededAfterFirst]

/-- Witness for C5: one emitted chunk under the superseded-after-first
schedule, at band 0, which lies before the supersession point m = 1. -/
theorem no_chunks_after_supersession_witness :
    0 < 1 * rowsPerChunk errorScenarioPayload := by
  have hmem : Response.chunk 5 0 (bandRows errorScenarioPayload 0) errorScenarioPayload.width
      (bandBuffer R0 errorScenarioPayload none none 0) ∈
      renderWithCpu R0 supersededAfterFirst 5 errorScenarioPayload none none := by
    rw [supersession_witness_output, bandChunk]
    simp
  exact no_chunks_after_supersession R0 supersededAfterFirst 5 errorScenarioPayload none none 1
    supersededAfterFirst_newer 0 (bandRows errorScenarioPayload 0) errorScenarioPayload.width
    (bandBuffer R0 errorScenarioPayload none none 0) hmem

end FractalExplorer
